import Mathlib

/-!
Verification development for the `vrp_optimizer` routing engine.

The definitions below are a shallow embedding of the optimization core:

* `src/backend/rl/vrp_environment.py` — the route-construction
  environment (`VRPEnvironment.step`, `get_valid_actions`,
  `get_action_mask`, `_get_info`, and the real-data reset of
  `VRPEnvironmentWithRealData`);
* `src/backend/services/optimization_service.py` — the constructive
  heuristic `optimize_greedy`, the rollout loop of `optimize_with_rl`
  and `_build_routes_from_env`;
* `src/backend/rl/dqn_agent.py` — the `train_step` replay-buffer guard;
* `src/backend/schemas/schemas.py` — the `OptimizationRequest`
  list-length validation.

Python floats are embedded as rationals, and the two coordinate metrics
of the source (`_calculate_distance`, Euclidean over normalized
coordinates, and `_haversine_distance`, geodesic over lat/lon) are
abstracted into a distance-function parameter `Dist`: all general
theorems quantify over it, and concrete evaluations instantiate it with
the computable `ratDist` below.
-/

namespace VRP

/-- Distance-function abstraction standing for `_calculate_distance` /
`_haversine_distance` in the source: both take the two coordinate pairs
of the endpoints and return a float. -/
def Dist : Type := ℚ → ℚ → ℚ → ℚ → ℚ

/-- Computable stand-in metric (the L1 distance) used when a theorem
evaluates the model on a concrete instance. It coincides with the
source's Euclidean metric whenever the two points agree in one
coordinate, which holds for every concrete instance appearing in this
file (all their points share both coordinates, so every distance taken
is in fact `0` under either metric). -/
def ratDist : Dist := fun x1 y1 x2 y2 => |x2 - x1| + |y2 - y1|

/-- One customer node of the simulation (the `Customer` dataclass of
`vrp_environment.py`). The optional time-window fields are omitted:
none of the modelled operations reads them. -/
structure Customer where
  id : ℕ
  x : ℚ
  y : ℚ
  demand : ℤ
  priority : ℤ
  visited : Bool
deriving Repr, DecidableEq

instance : Inhabited Customer := ⟨⟨0, 0, 0, 0, 0, false⟩⟩

/-- One vehicle (the `Vehicle` dataclass of `vrp_environment.py`). -/
structure Vehicle where
  id : ℕ
  capacity : ℤ
  current_load : ℤ
  current_x : ℚ
  current_y : ℚ
  route : List ℕ
  total_distance : ℚ
deriving Repr, DecidableEq

instance : Inhabited Vehicle := ⟨⟨0, 0, 0, 0, 0, [], 0⟩⟩

/-- Mutable state of `VRPEnvironment`. -/
structure Env where
  customers : List Customer
  vehicles : List Vehicle
  current_vehicle_idx : ℕ
  depot_x : ℚ
  depot_y : ℚ
  num_customers : ℕ
  num_vehicles : ℕ
  max_steps : ℕ
  steps : ℕ
  total_reward : ℚ
deriving Repr, DecidableEq

/-- Result of one `VRPEnvironment.step` call. `reward` is the value
returned to the caller; `adjust` is the part of that value added
*after* `total_reward` was already accumulated (the forced-return
penalties, the completion bonus, and the truncation penalty), so that
`reward - adjust` is exactly what was added to `total_reward`. -/
structure StepResult where
  env : Env
  reward : ℚ
  adjust : ℚ
  terminated : Bool
  truncated : Bool
deriving Repr, DecidableEq

/-- Closing forced return applied to one vehicle once every customer is
visited (`step`, lines 256-263 of `vrp_environment.py`): the return
distance is charged to the vehicle and the reward penalised, but — as
in the source — neither the position nor the load is actually reset. -/
def closeVehicle (d : Dist) (dx dy : ℚ) (v : Vehicle) : Vehicle × ℚ :=
  if v.current_x = dx ∧ v.current_y = dy then (v, 0)
  else
    let dist := d v.current_x v.current_y dx dy
    ({ v with total_distance := v.total_distance + dist }, dist * (1 / 10))

/-- Action dispatch of `VRPEnvironment.step` (lines 190-248 of
`vrp_environment.py`), applied to the state `env0` in which the step
counter has already been incremented: returns the mutated state
together with the reward value as it stands right before the
`total_reward` accumulation of line 250. Branch order follows the
source: depot return, already-visited penalty, capacity-overflow
forced return, feasible visit, out-of-range penalty. -/
def stepBranch (d : Dist) (env0 : Env) (action : ℕ) : Env × ℚ :=
  let vi := env0.current_vehicle_idx
  let v := env0.vehicles.getD vi default
  if action = env0.num_customers then
      let dist := d v.current_x v.current_y env0.depot_x env0.depot_y
      let v' := { v with total_distance := v.total_distance + dist,
                         current_x := env0.depot_x, current_y := env0.depot_y,
                         current_load := 0 }
      ({ env0 with vehicles := env0.vehicles.set vi v',
                   current_vehicle_idx := (vi + 1) % env0.num_vehicles },
       -dist * (1 / 10))
    else if action < env0.num_customers then
      let c := env0.customers.getD action default
      if c.visited then
        (env0, -1)
      else if v.capacity < v.current_load + c.demand then
        let dist := d v.current_x v.current_y env0.depot_x env0.depot_y
        let v' := { v with total_distance := v.total_distance + dist,
                           current_x := env0.depot_x, current_y := env0.depot_y,
                           current_load := 0 }
        ({ env0 with vehicles := env0.vehicles.set vi v' },
         -(1 / 2) - dist * (1 / 10))
      else
        let dist := d v.current_x v.current_y c.x c.y
        let newLoad := v.current_load + c.demand
        let v' := { v with total_distance := v.total_distance + dist,
                           current_x := c.x, current_y := c.y,
                           current_load := newLoad,
                           route := v.route ++ [c.id] }
        let c' := { c with visited := true }
        let base := -dist * (1 / 10) + (1 / 2) * (c.priority : ℚ)
        let base := if (7 / 10 : ℚ) < (newLoad : ℚ) / (v.capacity : ℚ)
          then base + 1 / 5 else base
        ({ env0 with vehicles := env0.vehicles.set vi v',
                     customers := env0.customers.set action c' }, base)
    else
      (env0, -1)

/-- Closing part of `VRPEnvironment.step` (lines 250-279): accumulate
the branch reward into `total_reward`, then run the all-visited closing
block (forced returns plus the `+10` completion bonus) and the
step-budget truncation check, both of which modify the reward value
*returned* by `step` but not the already-updated `total_reward`. -/
def stepFinish (d : Dist) (branch : Env × ℚ) : StepResult :=
  let env1 := branch.1
  let base := branch.2
  let env2 := { env1 with total_reward := env1.total_reward + base }
  let allVisited := env2.customers.all (fun c => c.visited)
  let closing : Env × ℚ × Bool :=
    if allVisited then
      let pairs := env2.vehicles.map (closeVehicle d env2.depot_x env2.depot_y)
      ({ env2 with vehicles := pairs.map Prod.fst },
       10 - (pairs.map Prod.snd).sum, true)
    else (env2, 0, false)
  let env3 := closing.1
  let truncAdj : ℚ :=
    if env3.max_steps ≤ env3.steps then
      -(2 * ((env3.customers.countP (fun c => !c.visited) : ℕ) : ℚ))
    else 0
  { env := env3,
    reward := base + closing.2.1 + truncAdj,
    adjust := closing.2.1 + truncAdj,
    terminated := closing.2.2,
    truncated := decide (env3.max_steps ≤ env3.steps) }

/-- Mirror of `VRPEnvironment.step` (lines 168-279 of
`vrp_environment.py`), extended with the `adjust` observation described
at `StepResult`: increment the step counter, dispatch on the action,
then run the closing block. -/
def stepExt (d : Dist) (env : Env) (action : ℕ) : StepResult :=
  stepFinish d (stepBranch d { env with steps := env.steps + 1 } action)

/-- Projection of `stepExt` onto the tuple actually returned by the
source's `step`: successor state, reward, terminated, truncated. -/
def step (d : Dist) (env : Env) (action : ℕ) : Env × ℚ × Bool × Bool :=
  let r := stepExt d env action
  (r.env, r.reward, r.terminated, r.truncated)

/-- Mirror of `VRPEnvironment.get_valid_actions` (lines 325-338):
indices of unvisited customers whose demand fits the active vehicle's
remaining capacity, in input order, followed by the depot-return action
`num_customers`. -/
def get_valid_actions (env : Env) : List ℕ :=
  let v := env.vehicles.getD env.current_vehicle_idx default
  ((List.range env.customers.length).filter (fun i =>
      let c := env.customers.getD i default
      !c.visited && decide (v.current_load + c.demand ≤ v.capacity)))
    ++ [env.num_customers]

/-- Mirror of `VRPEnvironment.get_action_mask` (lines 340-348): a
vector of length `num_customers + 1` holding `1` exactly at the indices
listed by `get_valid_actions`. -/
def get_action_mask (env : Env) : List ℚ :=
  (List.range (env.num_customers + 1)).map
    (fun i => if i ∈ get_valid_actions env then (1 : ℚ) else 0)

/-- Info dictionary built by `VRPEnvironment._get_info`
(lines 310-319). -/
structure Info where
  total_distance : ℚ
  customers_visited : ℕ
  customers_remaining : ℕ
  current_vehicle : ℕ
  steps : ℕ
  total_reward : ℚ
deriving Repr, DecidableEq

/-- Mirror of `VRPEnvironment._get_info`. -/
def get_info (env : Env) : Info :=
  { total_distance := (env.vehicles.map (fun v => v.total_distance)).sum,
    customers_visited := env.customers.countP (fun c => c.visited),
    customers_remaining := env.customers.countP (fun c => !c.visited),
    current_vehicle := env.current_vehicle_idx,
    steps := env.steps,
    total_reward := env.total_reward }

/-- Raw customer record handed to the service layer
(`{"id", "lat", "lon", "demand", "priority"}`). -/
structure CustomerData where
  id : ℕ
  lat : ℚ
  lon : ℚ
  demand : ℤ
  priority : ℤ
deriving Repr, DecidableEq

instance : Inhabited CustomerData := ⟨⟨0, 0, 0, 0, 0⟩⟩

/-- Raw vehicle record handed to the service layer
(`{"id", "capacity"}`). -/
structure VehicleData where
  id : ℕ
  capacity : ℤ
deriving Repr, DecidableEq

instance : Inhabited VehicleData := ⟨⟨0, 0⟩⟩

/-- Raw depot record (`{"id", "lat", "lon"}`). -/
structure DepotData where
  lat : ℚ
  lon : ℚ
deriving Repr, DecidableEq

/-- Mirror of `VRPEnvironmentWithRealData.reset` together with the
normalization bounds computed in `_normalize_coordinates`
(lines 441-485 of `vrp_environment.py`): coordinates are rescaled into
the unit square by the instance's own bounding box (with the `0.001`
floor on each range), all vehicles start at the depot, all customers
unvisited, and `max_steps = 3 * num_customers` as set in
`VRPEnvironment.__init__`. -/
def resetReal (cds : List CustomerData) (vds : List VehicleData)
    (dep : DepotData) : Env :=
  let latMin := (cds.map (fun c => c.lat)).foldl min dep.lat
  let latMax := (cds.map (fun c => c.lat)).foldl max dep.lat
  let lonMin := (cds.map (fun c => c.lon)).foldl min dep.lon
  let lonMax := (cds.map (fun c => c.lon)).foldl max dep.lon
  let latRange := max (latMax - latMin) (1 / 1000)
  let lonRange := max (lonMax - lonMin) (1 / 1000)
  let depotX := (dep.lon - lonMin) / lonRange
  let depotY := (dep.lat - latMin) / latRange
  { customers := cds.enum.map (fun p =>
      { id := p.1,
        x := (p.2.lon - lonMin) / lonRange,
        y := (p.2.lat - latMin) / latRange,
        demand := p.2.demand,
        priority := p.2.priority,
        visited := false }),
    vehicles := vds.enum.map (fun p =>
      { id := p.1, capacity := p.2.capacity, current_load := 0,
        current_x := depotX, current_y := depotY,
        route := [], total_distance := 0 }),
    current_vehicle_idx := 0,
    depot_x := depotX,
    depot_y := depotY,
    num_customers := cds.length,
    num_vehicles := vds.length,
    max_steps := cds.length * 3,
    steps := 0,
    total_reward := 0 }

/-- Stand-in for Python `round(x, 2)` as applied to the distances of
`optimization_service.py`. Mathlib's `round` rounds halves up where
Python's float `round` rounds halves to even; the two agree on every
value this file evaluates concretely (all of them exact at two decimal
places). -/
def round2 (q : ℚ) : ℚ := ((round (q * 100) : ℤ) : ℚ) / 100

/-- Stand-in for Python `int(x)`: truncation toward zero, which is what
`Int.div` computes on `num / den`. -/
def pyInt (q : ℚ) : ℤ := q.num / (q.den : ℤ)

/-- One stop of a computed route (the `route_points` dictionaries built
in `optimization_service.py`; `lat`/`lon` flatten the nested
`location`). -/
structure RoutePoint where
  customer_id : ℕ
  lat : ℚ
  lon : ℚ
  demand : ℤ
  sequence : ℕ
deriving Repr, DecidableEq

instance : Inhabited RoutePoint := ⟨⟨0, 0, 0, 0, 0⟩⟩

/-- One per-vehicle route of a canonical optimization result. -/
structure Route where
  vehicle_id : ℕ
  points : List RoutePoint
  total_distance_km : ℚ
  total_time_minutes : ℤ
  total_demand : ℤ
  geometry : List (ℚ × ℚ)
deriving Repr, DecidableEq

instance : Inhabited Route := ⟨⟨0, [], 0, 0, 0, []⟩⟩

/-- Canonical optimization result shared by the strategies
(`optimize_greedy` return value; the `metrics` field is omitted as no
claim reads it). -/
structure OptResult where
  success : Bool
  routes : List Route
  total_distance_km : ℚ
  total_time_minutes : ℤ
  customers_served : ℕ
  customers_unserved : ℕ
deriving Repr, DecidableEq

/-- Mirror of `OptimizationService._build_routes_from_env`
(lines 398-431 of `optimization_service.py`): one route per vehicle
with a non-empty `route` list, points read back through the customers
list, `total_demand` taken from the vehicle's *current* load, and the
`* 100` scale factor on distances. The source guards twice
(`if not vehicle.route: continue` and `if route_points:`); a non-empty
route always yields non-empty points, so one guard suffices here. -/
def build_routes_from_env (env : Env) (cds : List CustomerData)
    (vds : List VehicleData) : List Route :=
  env.vehicles.enum.filterMap (fun p =>
    if p.2.route.isEmpty then none
    else
      some { vehicle_id := (vds.getD p.1 default).id,
             points := p.2.route.enum.map (fun q =>
               let c := cds.getD q.2 default
               { customer_id := c.id, lat := c.lat, lon := c.lon,
                 demand := c.demand, sequence := q.1 }),
             total_distance_km := round2 (p.2.total_distance * 100),
             total_time_minutes := pyInt (p.2.total_distance * 100 * 2),
             total_demand := p.2.current_load,
             geometry := [] })

/-- Inference loop of `OptimizationService.optimize_with_rl`
(lines 134-143): repeatedly query the policy for an action and step the
environment until it reports terminated or truncated. The fuel bounds
the iteration count; `max_steps` always suffices because the
environment truncates once `steps` reaches `max_steps`. -/
def rollout (d : Dist) (pol : Env → ℕ) : ℕ → Env → Env
  | 0, env => env
  | fuel + 1, env =>
    let r := stepExt d env (pol env)
    if r.terminated || r.truncated then r.env else rollout d pol fuel r.env

/-- Concrete mask-respecting policy used to exercise the learned-policy
result path: it plays the first action listed by `get_valid_actions`
(the depot return when no customer is feasible). Every action it takes
is marked valid by the action mask, so the rollouts it produces are
rollouts an arg-max agent over the masked Q-values can realise. -/
def firstValidPolicy (env : Env) : ℕ :=
  (get_valid_actions env).headD env.num_customers

/-- Route list of the learned-policy strategy's result: a rollout from
the real-data reset, read back through `_build_routes_from_env`
(`optimize_with_rl`, lines 122-146, with the agent abstracted into the
policy function). -/
def optimize_with_rl_routes (d : Dist) (pol : Env → ℕ)
    (cds : List CustomerData) (vds : List VehicleData)
    (dep : DepotData) : List Route :=
  let env0 := resetReal cds vds dep
  build_routes_from_env (rollout d pol env0.max_steps env0) cds vds

/-- Inner selection loop of `optimize_greedy` (lines 185-198 of
`optimization_service.py`): scan the unassigned customer indices in
order and keep the first-encountered feasible customer of strictly
smallest distance from the current position. `acc` is the best
`(index, distance)` seen so far; `none` plays the role of
`best_dist = inf`. -/
def selectBest (d : Dist) (cs : List CustomerData) (clat clon : ℚ)
    (load cap : ℤ) : List ℕ → Option (ℕ × ℚ) → Option (ℕ × ℚ)
  | [], acc => acc
  | idx :: rest, acc =>
    let c := cs.getD idx default
    let acc' :=
      if load + c.demand ≤ cap then
        let dist := d clat clon c.lat c.lon
        match acc with
        | none => some (idx, dist)
        | some (bi, bd) => if dist < bd then some (idx, dist) else some (bi, bd)
      else acc
    selectBest d cs clat clon load cap rest acc'

/-- Intermediate state of one vehicle's construction loop in
`optimize_greedy`: accumulated points, accumulated leg distance, load,
current position, and the remaining unassigned indices. -/
structure BuildRes where
  points : List RoutePoint
  dist : ℚ
  load : ℤ
  posLat : ℚ
  posLon : ℚ
  unassigned : List ℕ
deriving Repr, DecidableEq

/-- Mirror of the `while unassigned:` loop of `optimize_greedy`
(lines 184-216): pick the nearest feasible unassigned customer, append
it with the running sequence number `n`, move there, add its demand and
remove it from the unassigned list; stop when no candidate is feasible.
The fuel argument is always called with `unassigned.length`, which the
loop can never exceed since every iteration removes one element. -/
def buildRoute (d : Dist) (cs : List CustomerData) (cap : ℤ) :
    ℕ → ℕ → ℚ → ℚ → ℤ → List ℕ → BuildRes
  | 0, _, la, lo, load, un => ⟨[], 0, load, la, lo, un⟩
  | fuel + 1, n, la, lo, load, un =>
    match selectBest d cs la lo load cap un none with
    | none => ⟨[], 0, load, la, lo, un⟩
    | some (bi, bd) =>
      let c := cs.getD bi default
      let r := buildRoute d cs cap fuel (n + 1) c.lat c.lon
        (load + c.demand) (un.erase bi)
      ⟨⟨c.id, c.lat, c.lon, c.demand, n⟩ :: r.points,
       bd + r.dist, r.load, r.posLat, r.posLon, r.unassigned⟩

/-- One iteration of the outer `for vehicle in vehicles:` loop of
`optimize_greedy` (straight-line-geometry branch, `use_real_roads`
false): run the construction loop from the depot with load 0; if any
customer was served, add the depot-return leg and emit the route record
(lines 218-244). -/
def greedyVehicle (d : Dist) (dep : DepotData) (cs : List CustomerData)
    (v : VehicleData) (un : List ℕ) : Option Route × List ℕ :=
  let r := buildRoute d cs v.capacity un.length 0 dep.lat dep.lon 0 un
  if r.points = [] then (none, r.unassigned)
  else
    let total := r.dist + d r.posLat r.posLon dep.lat dep.lon
    (some { vehicle_id := v.id,
            points := r.points,
            total_distance_km := round2 total,
            total_time_minutes := pyInt (total * 2),
            total_demand := r.load,
            geometry := ((dep.lat, dep.lon) :: r.points.map
                (fun p => (p.lat, p.lon))) ++ [(dep.lat, dep.lon)] },
     r.unassigned)

/-- Folding step over the vehicle list in `optimize_greedy`. -/
def greedyStep (d : Dist) (dep : DepotData) (cs : List CustomerData) :
    List Route × List ℕ → VehicleData → List Route × List ℕ :=
  fun acc v =>
    match greedyVehicle d dep cs v acc.2 with
    | (some r, un) => (acc.1 ++ [r], un)
    | (none, un) => (acc.1, un)

/-- Mirror of `OptimizationService.optimize_greedy` (lines 161-257 of
`optimization_service.py`, `use_real_roads` false): nearest-feasible
neighbour per vehicle in input order, then the aggregate totals. -/
def optimizeGreedy (d : Dist) (dep : DepotData) (cs : List CustomerData)
    (vs : List VehicleData) : OptResult :=
  let res := vs.foldl (greedyStep d dep cs) ([], List.range cs.length)
  let totalDist := (res.1.map (fun r => r.total_distance_km)).sum
  { success := true,
    routes := res.1,
    total_distance_km := round2 totalDist,
    total_time_minutes := pyInt (totalDist * 2),
    customers_served := (res.1.map (fun r => r.points.length)).sum,
    customers_unserved := res.2.length }

/-- Request-level validation of `OptimizationRequest` (schemas.py,
lines 157-166): both `customer_ids` and `vehicle_ids` carry
`Field(..., min_length=1)`, so pydantic accepts the request only when
both lists are non-empty. Identifier strings are modelled as tokens. -/
def optimizationRequestValid (customer_ids vehicle_ids : List ℕ) : Bool :=
  decide (1 ≤ customer_ids.length) && decide (1 ≤ vehicle_ids.length)

/-- State of `DQNAgent` as far as `train_step` touches it. The network
parameter spaces `P`, the optimizer state `O` and the stored transition
type `T` are abstract: the torch specifics are irrelevant to the
claims settled here. -/
structure AgentState (P O T : Type) where
  policyParams : P
  targetParams : P
  optState : O
  stepsDone : ℕ
  losses : List ℚ
  memory : List T
  batchSize : ℕ

/-- Mirror of the control flow of `DQNAgent.train_step` (lines 295-347
of `dqn_agent.py`): with fewer than `batchSize` stored transitions it
returns `None` without touching anything; otherwise the sampled-batch
gradient update (the torch code of lines 305-342) is modelled by the
abstract `upd`, which yields the loss together with the new policy
parameters and optimizer state, after which the step counter and loss
history are advanced exactly as in the source. -/
def train_step {P O T : Type} (upd : AgentState P O T → ℚ × P × O)
    (s : AgentState P O T) : Option ℚ × AgentState P O T :=
  if s.memory.length < s.batchSize then (none, s)
  else
    let r := upd s
    (some r.1,
     { s with policyParams := r.2.1,
              optState := r.2.2,
              stepsDone := s.stepsDone + 1,
              losses := s.losses ++ [r.1] })

/-! Concrete problem instances used by the evaluation theorems. Every
point of every instance sits at the same lat/lon, so after the
normalization of `resetReal` all coordinates are `(0, 0)` and every
distance taken is `0` under the source's metrics as well as under
`ratDist`. -/

/-- Three customers of demand 5 placed at the depot. -/
def cdsC1 : List CustomerData := [⟨0, 0, 0, 5, 1⟩, ⟨1, 0, 0, 5, 1⟩, ⟨2, 0, 0, 5, 1⟩]

/-- One vehicle of capacity 10. -/
def vdsC1 : List VehicleData := [⟨0, 10⟩]

/-- Depot at the origin. -/
def depC1 : DepotData := ⟨0, 0⟩

/-- Fresh one-customer environment (demand 1, capacity 10). -/
def c2env0 : Env := resetReal [⟨0, 0, 0, 1, 1⟩] [⟨0, 10⟩] ⟨0, 0⟩

/-- Fresh one-customer environment whose single demand 5 exceeds the
single capacity 3 (`max_steps = 3`). -/
def c5env0 : Env := resetReal [⟨0, 0, 0, 5, 1⟩] [⟨0, 3⟩] ⟨0, 0⟩

/-- The same after one wasted depot-return step (`steps = 1`). -/
def c5env1 : Env := (stepExt ratDist c5env0 1).env

/-- The same after two wasted depot-return steps (`steps = 2`), so the
next step is the truncation step. -/
def c5env2 : Env := (stepExt ratDist c5env1 1).env

/-- Fresh two-customer environment (demands 1, capacity 10). -/
def c6env0 : Env := resetReal [⟨0, 0, 0, 1, 1⟩, ⟨1, 0, 0, 1, 1⟩] [⟨0, 10⟩] ⟨0, 0⟩

/-- The same after customer 0 has been visited (`steps = 1`). -/
def c6env1 : Env := (stepExt ratDist c6env0 0).env

/-- C1 counterexample: on the instance with three demand-5 customers
and one capacity-10 vehicle, a mask-respecting rollout of the
learned-policy path (visit 0, visit 1, forced depot choice, visit 2)
returns a single route whose points carry total demand 15, exceeding
the vehicle's capacity 10: the per-vehicle `route` list accumulates
across depot returns while the load resets, so the returned route
aggregates two trips. -/
theorem c1_capacity_counterexample :
    (optimize_with_rl_routes ratDist firstValidPolicy cdsC1 vdsC1 depC1).length = 1 ∧
    (vdsC1.headD default).capacity = 10 ∧
    (((optimize_with_rl_routes ratDist firstValidPolicy cdsC1 vdsC1
        depC1).headD default).points.map (fun p => p.demand)).sum = 15 ∧
    ¬ ((15 : ℤ) ≤ 10) :=
  ⟨by with_unfolding_all rfl, by with_unfolding_all rfl,
   by with_unfolding_all rfl, by decide⟩

/-- C2 counterexample: a one-customer episode terminating on its first
step returns the single step reward `21/2` (completion bonus included),
while the info dictionary reports `total_reward = 1/2` — the sum of
returned step rewards does not equal the reported total, because
`total_reward` is accumulated before the termination adjustments. -/
theorem c2_reward_sum_counterexample :
    (stepExt ratDist c2env0 0).terminated = true ∧
    (stepExt ratDist c2env0 0).reward = 21 / 2 ∧
    (get_info (stepExt ratDist c2env0 0).env).total_reward = 1 / 2 ∧
    (21 / 2 : ℚ) ≠ 1 / 2 :=
  ⟨by with_unfolding_all rfl, by with_unfolding_all rfl,
   by with_unfolding_all rfl, by norm_num⟩

/-- C3 counterexample: the request schema rejects an empty customer
list (so such a call yields a validation failure, not a success with
zero routes), while the greedy strategy invoked with an empty vehicle
list returns `success = true` rather than an explicit validation
failure. -/
theorem c3_validation_counterexample :
    optimizationRequestValid [] [0] = false ∧
    (optimizeGreedy ratDist ⟨0, 0⟩ [⟨0, 0, 0, 1, 1⟩] []).success = true :=
  ⟨by with_unfolding_all rfl, by with_unfolding_all rfl⟩

/-- C5 counterexample: in `c5env2` the overflow branch is taken (node 0
unvisited, demand 5 over remaining capacity 3, vehicle-to-depot
distance 0), yet the returned reward is `-5/2`, not the claimed
`-1/2 - (1/10) * 0`: this step also reaches the step budget, and the
truncation penalty is added to the returned value. -/
theorem c5_overflow_counterexample :
    (c5env2.customers.getD 0 default).visited = false ∧
    (c5env2.vehicles.getD 0 default).capacity
      < (c5env2.vehicles.getD 0 default).current_load
        + (c5env2.customers.getD 0 default).demand ∧
    ratDist (c5env2.vehicles.getD 0 default).current_x
      (c5env2.vehicles.getD 0 default).current_y c5env2.depot_x c5env2.depot_y = 0 ∧
    (stepExt ratDist c5env2 0).reward = -(5 / 2) ∧
    (-(5 / 2) : ℚ) ≠ -(1 / 2) - (1 / 10) * 0 :=
  ⟨by with_unfolding_all rfl, by with_unfolding_all decide,
   by with_unfolding_all rfl, by with_unfolding_all rfl, by norm_num⟩

/-- C6 counterexample: a step selecting the already-visited node 0 of
`c6env1` (with node 1 still unvisited) returns the penalty `-1`, but
the environment's step counter advances from 1 to 2 — the claimed
frame condition that the counters stay unchanged fails. -/
theorem c6_frame_counterexample :
    (c6env1.customers.getD 0 default).visited = true ∧
    c6env1.customers.all (fun c => c.visited) = false ∧
    (stepExt ratDist c6env1 0).reward = -1 ∧
    c6env1.steps = 1 ∧
    (stepExt ratDist c6env1 0).env.steps = 2 ∧
    (1 : ℕ) ≠ 2 :=
  ⟨by with_unfolding_all rfl, by with_unfolding_all rfl,
   by with_unfolding_all rfl, by with_unfolding_all rfl,
   by with_unfolding_all rfl, by decide⟩

/-- C9: when the replay buffer holds fewer than `batchSize`
transitions, `train_step` returns `None` and leaves the agent state —
live parameters, target parameters, optimizer state, step counter and
loss history — completely unchanged. -/
theorem c9_train_step_guard {P O T : Type}
    (upd : AgentState P O T → ℚ × P × O) (s : AgentState P O T)
    (h : s.memory.length < s.batchSize) :
    train_step upd s = (none, s) := by
  simp [train_step, h]

/-- C9 witness: a concrete agent with an empty buffer and the default
batch size 64. -/
theorem c9_train_step_guard_witness :
    train_step (fun _ => (0, 0, 0))
      (⟨0, 0, 0, 0, [], ([] : List ℕ), 64⟩ : AgentState ℕ ℕ ℕ)
      = (none, ⟨0, 0, 0, 0, [], [], 64⟩) :=
  c9_train_step_guard _ _ (by decide)

/-- Episode runner: apply a list of actions with `stepExt`, collecting
the final state, the sum of the rewards returned by the individual
steps, and the sum of the post-accumulation adjustments. -/
def runEpisode (d : Dist) : Env → List ℕ → Env × ℚ × ℚ
  | env, [] => (env, 0, 0)
  | env, a :: rest =>
    let r := stepExt d env a
    let t := runEpisode d r.env rest
    (t.1, r.reward + t.2.1, r.adjust + t.2.2)

/-- The action dispatch never touches `total_reward`. -/
theorem stepBranch_total_reward (d : Dist) (env0 : Env) (a : ℕ) :
    (stepBranch d env0 a).1.total_reward = env0.total_reward := by
  unfold stepBranch
  dsimp only
  split_ifs <;> rfl

/-- The closing part accumulates exactly the branch reward into
`total_reward`, and the difference between the returned reward and the
adjustment component is that branch reward. -/
theorem stepFinish_total_reward (d : Dist) (p : Env × ℚ) :
    (stepFinish d p).env.total_reward = p.1.total_reward + p.2 ∧
    (stepFinish d p).reward - (stepFinish d p).adjust = p.2 := by
  unfold stepFinish
  dsimp only
  constructor
  · split_ifs <;> rfl
  · ring

/-- Per-step accounting: `total_reward` advances by the returned reward
minus the post-accumulation adjustments. -/
theorem stepExt_total_reward (d : Dist) (env : Env) (a : ℕ) :
    (stepExt d env a).env.total_reward
      = env.total_reward
        + ((stepExt d env a).reward - (stepExt d env a).adjust) := by
  unfold stepExt
  rw [(stepFinish_total_reward d _).2, (stepFinish_total_reward d _).1,
    stepBranch_total_reward]

/-- C2 (amended): over any sequence of step calls, the sum of the
rewards returned by the individual steps equals the change in the
reported `total_reward` of the info dictionary *plus* the sum of the
post-accumulation adjustments (forced-return penalties, completion
bonus and truncation penalty of the final steps). The claim's exact
equality holds only for episodes that end with no such adjustment;
`total_reward` is accumulated at line 250 of `vrp_environment.py`,
before the adjustments of lines 253-274 are added to the returned
reward. -/
theorem c2_reward_sum_amended (d : Dist) (env : Env) (actions : List ℕ) :
    (runEpisode d env actions).2.1
      = ((get_info (runEpisode d env actions).1).total_reward
          - (get_info env).total_reward)
        + (runEpisode d env actions).2.2 := by
  induction actions generalizing env with
  | nil => simp [runEpisode, get_info]
  | cons a rest ih =>
    have h1 := stepExt_total_reward d env a
    have h2 := ih (stepExt d env a).env
    simp only [runEpisode, get_info] at h2 ⊢
    linarith

/-- Membership in the valid-action list, unfolded. -/
theorem mem_get_valid_actions (env : Env)
    (hlen : env.customers.length = env.num_customers) (i : ℕ) :
    i ∈ get_valid_actions env ↔
      (i = env.num_customers ∨
        (i < env.num_customers ∧
         (env.customers.getD i default).visited = false ∧
         (env.vehicles.getD env.current_vehicle_idx default).current_load
             + (env.customers.getD i default).demand
           ≤ (env.vehicles.getD env.current_vehicle_idx default).capacity)) := by
  unfold get_valid_actions
  simp only [List.mem_append, List.mem_filter, List.mem_range,
    List.mem_singleton, Bool.and_eq_true, Bool.not_eq_true',
    decide_eq_true_eq, hlen]
  tauto

/-- Mask entries below the vector length read back the validity test. -/
theorem get_action_mask_getD (env : Env) (i : ℕ)
    (hi : i < env.num_customers + 1) :
    (get_action_mask env).getD i 0
      = if i ∈ get_valid_actions env then (1 : ℚ) else 0 := by
  unfold get_action_mask
  rw [List.getD_eq_getElem?_getD, List.getElem?_map, List.getElem?_range hi]
  rfl

/-- C4: the action mask has length `num_customers + 1`, every entry is
0 or 1, and an entry `i ≤ num_customers` is 1 exactly when `i` is the
depot-return action, or customer `i` is unvisited and its demand plus
the active vehicle's current load fits that vehicle's capacity. -/
theorem c4_action_mask_correct (env : Env)
    (hlen : env.customers.length = env.num_customers)
    (i : ℕ) (hi : i ≤ env.num_customers) :
    (get_action_mask env).length = env.num_customers + 1 ∧
    ((get_action_mask env).getD i 0 = 1 ∨ (get_action_mask env).getD i 0 = 0) ∧
    ((get_action_mask env).getD i 0 = 1 ↔
      (i = env.num_customers ∨
        (i < env.num_customers ∧
         (env.customers.getD i default).visited = false ∧
         (env.vehicles.getD env.current_vehicle_idx default).current_load
             + (env.customers.getD i default).demand
           ≤ (env.vehicles.getD env.current_vehicle_idx default).capacity))) := by
  have hi' : i < env.num_customers + 1 := Nat.lt_succ_of_le hi
  have hmem := mem_get_valid_actions env hlen i
  refine ⟨by simp [get_action_mask], ?_, ?_⟩
  · rw [get_action_mask_getD env i hi']
    split_ifs <;> simp
  · rw [get_action_mask_getD env i hi']
    by_cases h : i ∈ get_valid_actions env
    · rw [if_pos h]
      simp only [true_iff]
      exact hmem.mp h
    · rw [if_neg h]
      constructor
      · intro h0
        exact absurd h0 (by norm_num)
      · intro hr
        exact absurd (hmem.mpr hr) h

/-- C4 witness: the depot-return entry of the fresh one-customer
environment's mask. -/
theorem c4_action_mask_correct_witness :
    (get_action_mask c2env0).length = c2env0.num_customers + 1 ∧
    ((get_action_mask c2env0).getD 1 0 = 1 ∨
      (get_action_mask c2env0).getD 1 0 = 0) ∧
    ((get_action_mask c2env0).getD 1 0 = 1 ↔
      (1 = c2env0.num_customers ∨
        (1 < c2env0.num_customers ∧
         (c2env0.customers.getD 1 default).visited = false ∧
         (c2env0.vehicles.getD c2env0.current_vehicle_idx
               default).current_load
             + (c2env0.customers.getD 1 default).demand
           ≤ (c2env0.vehicles.getD c2env0.current_vehicle_idx
               default).capacity))) :=
  c4_action_mask_correct c2env0 (by with_unfolding_all rfl) 1
    (by with_unfolding_all decide)

/-- A customer list with an unvisited entry fails the all-visited
test. -/
theorem all_visited_false_of_unvisited (cs : List Customer) (a : ℕ)
    (h : a < cs.length) (hvis : (cs.getD a default).visited = false) :
    cs.all (fun c => c.visited) = false := by
  cases hall : cs.all (fun c => c.visited) with
  | false => rfl
  | true =>
    have hmem : cs.getD a default ∈ cs := by
      rw [List.getD_eq_getElem cs default h]
      exact List.getElem_mem h
    have hv := List.all_eq_true.mp hall _ hmem
    rw [hvis] at hv
    cases hv

/-- C5 (amended): a step selecting an unvisited node whose demand
overflows the active vehicle's remaining capacity — *provided the step
does not reach the step budget* — returns exactly
`-1/2 - (1/10) * return_distance`, forces the active vehicle back to
the depot with load 0 and the return distance charged, leaves every
customer (in particular the selected node) untouched, and neither
terminates nor truncates. At the step-budget boundary the truncation
penalty is additionally folded into the returned reward, which is what
the counterexample exhibits. -/
theorem c5_overflow_step_amended (d : Dist) (env : Env) (a : ℕ)
    (hlen : env.customers.length = env.num_customers)
    (ha : a < env.num_customers)
    (hvis : (env.customers.getD a default).visited = false)
    (hover : (env.vehicles.getD env.current_vehicle_idx default).capacity
      < (env.vehicles.getD env.current_vehicle_idx default).current_load
        + (env.customers.getD a default).demand)
    (hsteps : env.steps + 1 < env.max_steps) :
    (stepExt d env a).reward
      = -(1 / 2)
        - d (env.vehicles.getD env.current_vehicle_idx default).current_x
            (env.vehicles.getD env.current_vehicle_idx default).current_y
            env.depot_x env.depot_y * (1 / 10) ∧
    (stepExt d env a).env.vehicles
      = env.vehicles.set env.current_vehicle_idx
          { env.vehicles.getD env.current_vehicle_idx default with
            total_distance :=
              (env.vehicles.getD env.current_vehicle_idx
                  default).total_distance
                + d (env.vehicles.getD env.current_vehicle_idx
                      default).current_x
                    (env.vehicles.getD env.current_vehicle_idx
                      default).current_y
                    env.depot_x env.depot_y,
            current_x := env.depot_x, current_y := env.depot_y,
            current_load := 0 } ∧
    (stepExt d env a).env.customers = env.customers ∧
    (stepExt d env a).env.steps = env.steps + 1 ∧
    ((stepExt d env a).env.customers.getD a default).visited = false ∧
    (stepExt d env a).terminated = false ∧
    (stepExt d env a).truncated = false := by
  have hne : ¬ (a = env.num_customers) := Nat.ne_of_lt ha
  have hnotall : env.customers.all (fun c => c.visited) = false :=
    all_visited_false_of_unvisited env.customers a (hlen ▸ ha) hvis
  have hbr : stepBranch d { env with steps := env.steps + 1 } a
      = ({ env with
            steps := env.steps + 1,
            vehicles := env.vehicles.set env.current_vehicle_idx
              { env.vehicles.getD env.current_vehicle_idx default with
                total_distance :=
                  (env.vehicles.getD env.current_vehicle_idx
                      default).total_distance
                    + d (env.vehicles.getD env.current_vehicle_idx
                          default).current_x
                        (env.vehicles.getD env.current_vehicle_idx
                          default).current_y
                        env.depot_x env.depot_y,
                current_x := env.depot_x, current_y := env.depot_y,
                current_load := 0 } },
         -(1 / 2)
           - d (env.vehicles.getD env.current_vehicle_idx
                 default).current_x
               (env.vehicles.getD env.current_vehicle_idx
                 default).current_y
               env.depot_x env.depot_y * (1 / 10)) := by
    unfold stepBranch
    dsimp only
    rw [if_neg hne, if_pos ha, if_neg (by rw [hvis]; simp), if_pos hover]
  have hstep := congrArg (stepFinish d) hbr
  rw [show stepExt d env a
      = stepFinish d (stepBranch d { env with steps := env.steps + 1 } a)
      from rfl, hstep]
  unfold stepFinish
  dsimp only
  rw [if_neg (by rw [hnotall]; simp)]
  dsimp only
  rw [if_neg (Nat.not_le.mpr hsteps)]
  refine ⟨by ring, rfl, rfl, rfl, hvis, rfl, decide_eq_false (Nat.not_le.mpr hsteps)⟩

/-- Concrete witness state for the overflow step: two customers with
demands 5 and 1, one vehicle of capacity 3 (`max_steps = 6`, so the
first step stays below the budget). -/
def c5w : Env := resetReal [⟨0, 0, 0, 5, 1⟩, ⟨1, 0, 0, 1, 1⟩] [⟨0, 3⟩] ⟨0, 0⟩

/-- C5 witness: the reward of the overflow step on `c5w`. -/
theorem c5_overflow_step_amended_witness :
    (stepExt ratDist c5w 0).reward
      = -(1 / 2)
        - ratDist (c5w.vehicles.getD c5w.current_vehicle_idx
              default).current_x
            (c5w.vehicles.getD c5w.current_vehicle_idx default).current_y
            c5w.depot_x c5w.depot_y * (1 / 10) :=
  (c5_overflow_step_amended ratDist c5w 0 (by with_unfolding_all rfl)
    (by with_unfolding_all decide) (by with_unfolding_all rfl)
    (by with_unfolding_all decide) (by with_unfolding_all decide)).1

/-- C6 (amended): a step selecting an already-visited node (while some
node is still unvisited) leaves the vehicles, the customers and the
active-vehicle index untouched and does not terminate; the step counter
advances by one, `total_reward` accumulates the fixed penalty `-1`, and
the returned reward is `-1` plus the truncation penalty whenever this
step reaches the step budget. The original claim fails in two points
exhibited by the counterexample: the step counter does change, and at
the truncation boundary the returned reward is not `-1`. -/
theorem c6_frame_amended (d : Dist) (env : Env) (a : ℕ)
    (ha : a < env.num_customers)
    (hvis : (env.customers.getD a default).visited = true)
    (hnotall : env.customers.all (fun c => c.visited) = false) :
    (stepExt d env a).env
      = { env with steps := env.steps + 1,
                   total_reward := env.total_reward + (-1) } ∧
    (stepExt d env a).reward
      = -1 + (if env.max_steps ≤ env.steps + 1 then
          -(2 * ((env.customers.countP (fun c => !c.visited) : ℕ) : ℚ))
        else 0) ∧
    (stepExt d env a).terminated = false := by
  have hne : ¬ (a = env.num_customers) := Nat.ne_of_lt ha
  have hbr : stepBranch d { env with steps := env.steps + 1 } a
      = ({ env with steps := env.steps + 1 }, -1) := by
    unfold stepBranch
    dsimp only
    rw [if_neg hne, if_pos ha, if_pos hvis]
  have hstep := congrArg (stepFinish d) hbr
  rw [show stepExt d env a
      = stepFinish d (stepBranch d { env with steps := env.steps + 1 } a)
      from rfl, hstep]
  unfold stepFinish
  dsimp only
  rw [if_neg (by rw [hnotall]; simp)]
  dsimp only
  refine ⟨rfl, ?_, rfl⟩
  split_ifs with h <;> ring

/-- C6 witness: the already-visited step on `c6env1` (node 0 visited,
node 1 not), instantiating the amended reward equation. -/
theorem c6_frame_amended_witness :
    (stepExt ratDist c6env1 0).reward
      = -1 + (if c6env1.max_steps ≤ c6env1.steps + 1 then
          -(2 * ((c6env1.customers.countP (fun c => !c.visited) : ℕ) : ℚ))
        else 0) :=
  (c6_frame_amended ratDist c6env1 0 (by with_unfolding_all decide)
    (by with_unfolding_all rfl) (by with_unfolding_all rfl)).2.1

/-- Full characterization of the inner selection loop: whenever it
returns a candidate, that candidate's distance bounds every feasible
candidate of the scanned list from below and is strictly below the
incoming accumulator's distance whenever fresh, and — since the source
compares with a strict `dist < best_dist` — the candidate is the
first-encountered minimizer: every feasible element before it in the
list is strictly farther. -/
theorem selectBest_spec (d : Dist) (cs : List CustomerData)
    (clat clon : ℚ) (load cap : ℤ) :
    ∀ (l : List ℕ) (acc : Option (ℕ × ℚ)) (i : ℕ) (di : ℚ),
      selectBest d cs clat clon load cap l acc = some (i, di) →
      (∀ j ∈ l, load + (cs.getD j default).demand ≤ cap →
          di ≤ d clat clon (cs.getD j default).lat (cs.getD j default).lon) ∧
      (∀ bi bd, acc = some (bi, bd) → di ≤ bd) ∧
      (acc = some (i, di) ∨
        (load + (cs.getD i default).demand ≤ cap ∧
         di = d clat clon (cs.getD i default).lat (cs.getD i default).lon ∧
         (∀ bi bd, acc = some (bi, bd) → di < bd) ∧
         ∃ l1 l2, l = l1 ++ i :: l2 ∧
           ∀ j ∈ l1, load + (cs.getD j default).demand ≤ cap →
             di < d clat clon (cs.getD j default).lat
               (cs.getD j default).lon)) := by
  intro l
  induction l with
  | nil =>
    intro acc i di h
    simp only [selectBest] at h
    subst h
    refine ⟨by simp, ?_, Or.inl rfl⟩
    intro bi bd hbd
    simp only [Option.some.injEq, Prod.mk.injEq] at hbd
    obtain ⟨-, rfl⟩ := hbd
    exact le_refl di
  | cons idx rest ih =>
    intro acc i di h
    by_cases hfeas : load + (cs.getD idx default).demand ≤ cap
    · cases acc with
      | none =>
        simp only [selectBest, if_pos hfeas] at h
        obtain ⟨A, B, C⟩ := ih _ i di h
        have hlei : di
            ≤ d clat clon (cs.getD idx default).lat (cs.getD idx default).lon :=
          B idx _ rfl
        refine ⟨?_, by simp, Or.inr ?_⟩
        · intro j hj hfj
          rcases List.mem_cons.mp hj with rfl | hj'
          · exact hlei
          · exact A j hj' hfj
        rcases C with h0 | ⟨hf, hd, hlt, l1, l2, heq, hpre⟩
        · simp only [Option.some.injEq, Prod.mk.injEq] at h0
          obtain ⟨rfl, rfl⟩ := h0
          exact ⟨hfeas, rfl, by simp, [], rest, rfl, by simp⟩
        · have hlt' := hlt idx _ rfl
          refine ⟨hf, hd, by simp, idx :: l1, l2, by rw [heq]; rfl, ?_⟩
          intro j hj hfj
          rcases List.mem_cons.mp hj with rfl | hj'
          · exact hlt'
          · exact hpre j hj' hfj
      | some p =>
        obtain ⟨bi0, bd0⟩ := p
        by_cases hlt : d clat clon (cs.getD idx default).lat
            (cs.getD idx default).lon < bd0
        · simp only [selectBest, if_pos hfeas, if_pos hlt] at h
          obtain ⟨A, B, C⟩ := ih _ i di h
          have hlei : di
              ≤ d clat clon (cs.getD idx default).lat
                  (cs.getD idx default).lon :=
            B idx _ rfl
          refine ⟨?_, ?_, Or.inr ?_⟩
          · intro j hj hfj
            rcases List.mem_cons.mp hj with rfl | hj'
            · exact hlei
            · exact A j hj' hfj
          · intro bi bd hbd
            simp only [Option.some.injEq, Prod.mk.injEq] at hbd
            obtain ⟨-, rfl⟩ := hbd
            exact le_of_lt (lt_of_le_of_lt hlei hlt)
          rcases C with h0 | ⟨hf, hd, hlt2, l1, l2, heq, hpre⟩
          · simp only [Option.some.injEq, Prod.mk.injEq] at h0
            obtain ⟨rfl, rfl⟩ := h0
            refine ⟨hfeas, rfl, ?_, [], rest, rfl, by simp⟩
            intro bi bd hbd
            simp only [Option.some.injEq, Prod.mk.injEq] at hbd
            obtain ⟨-, rfl⟩ := hbd
            exact hlt
          · have hlt3 := hlt2 idx _ rfl
            refine ⟨hf, hd, ?_, idx :: l1, l2, by rw [heq]; rfl, ?_⟩
            · intro bi bd hbd
              simp only [Option.some.injEq, Prod.mk.injEq] at hbd
              obtain ⟨-, rfl⟩ := hbd
              exact lt_trans hlt3 hlt
            · intro j hj hfj
              rcases List.mem_cons.mp hj with rfl | hj'
              · exact hlt3
              · exact hpre j hj' hfj
        · simp only [selectBest, if_pos hfeas, if_neg hlt] at h
          obtain ⟨A, B, C⟩ := ih _ i di h
          have hle0 : di ≤ bd0 := B bi0 bd0 rfl
          have hleD : di
              ≤ d clat clon (cs.getD idx default).lat
                  (cs.getD idx default).lon :=
            le_trans hle0 (not_lt.mp hlt)
          refine ⟨?_, ?_, ?_⟩
          · intro j hj hfj
            rcases List.mem_cons.mp hj with rfl | hj'
            · exact hleD
            · exact A j hj' hfj
          · intro bi bd hbd
            simp only [Option.some.injEq, Prod.mk.injEq] at hbd
            obtain ⟨-, rfl⟩ := hbd
            exact hle0
          rcases C with h0 | ⟨hf, hd, hlt2, l1, l2, heq, hpre⟩
          · exact Or.inl h0
          · have hlt0 : di < bd0 := hlt2 bi0 bd0 rfl
            refine Or.inr ⟨hf, hd, ?_, idx :: l1, l2, by rw [heq]; rfl, ?_⟩
            · intro bi bd hbd
              simp only [Option.some.injEq, Prod.mk.injEq] at hbd
              obtain ⟨-, rfl⟩ := hbd
              exact hlt0
            · intro j hj hfj
              rcases List.mem_cons.mp hj with rfl | hj'
              · exact lt_of_lt_of_le hlt0 (not_lt.mp hlt)
              · exact hpre j hj' hfj
    · simp only [selectBest, if_neg hfeas] at h
      obtain ⟨A, B, C⟩ := ih _ i di h
      refine ⟨?_, B, ?_⟩
      · intro j hj hfj
        rcases List.mem_cons.mp hj with rfl | hj'
        · exact absurd hfj hfeas
        · exact A j hj' hfj
      rcases C with h0 | ⟨hf, hd, hlt2, l1, l2, heq, hpre⟩
      · exact Or.inl h0
      · refine Or.inr ⟨hf, hd, hlt2, idx :: l1, l2, by rw [heq]; rfl, ?_⟩
        intro j hj hfj
        rcases List.mem_cons.mp hj with rfl | hj'
        · exact absurd hfj hfeas
        · exact hpre j hj' hfj

/-- The selection loop returns its accumulator untouched when no
scanned candidate is feasible. -/
theorem selectBest_of_no_feasible (d : Dist) (cs : List CustomerData)
    (clat clon : ℚ) (load cap : ℤ) :
    ∀ (l : List ℕ) (acc : Option (ℕ × ℚ)),
      (∀ j ∈ l, ¬ (load + (cs.getD j default).demand ≤ cap)) →
      selectBest d cs clat clon load cap l acc = acc := by
  intro l
  induction l with
  | nil => intro acc _; rfl
  | cons idx rest ih =>
    intro acc h
    simp only [selectBest, if_neg (h idx (List.mem_cons_self idx rest))]
    exact ih acc (fun j hj => h j (List.mem_cons_of_mem idx hj))

/-- A `none` result means the accumulator was empty and nothing scanned
was feasible. -/
theorem selectBest_eq_none (d : Dist) (cs : List CustomerData)
    (clat clon : ℚ) (load cap : ℤ) :
    ∀ (l : List ℕ) (acc : Option (ℕ × ℚ)),
      selectBest d cs clat clon load cap l acc = none →
      acc = none ∧
        ∀ j ∈ l, ¬ (load + (cs.getD j default).demand ≤ cap) := by
  intro l
  induction l with
  | nil => intro acc h; exact ⟨h, by simp⟩
  | cons idx rest ih =>
    intro acc h
    by_cases hfeas : load + (cs.getD idx default).demand ≤ cap
    · exfalso
      cases acc with
      | none =>
        simp only [selectBest, if_pos hfeas] at h
        exact absurd (ih _ h).1 (by simp)
      | some p =>
        obtain ⟨bi0, bd0⟩ := p
        by_cases hlt : d clat clon (cs.getD idx default).lat
            (cs.getD idx default).lon < bd0
        · simp only [selectBest, if_pos hfeas, if_pos hlt] at h
          exact absurd (ih _ h).1 (by simp)
        · simp only [selectBest, if_pos hfeas, if_neg hlt] at h
          exact absurd (ih _ h).1 (by simp)
    · simp only [selectBest, if_neg hfeas] at h
      obtain ⟨h1, h2⟩ := ih _ h
      refine ⟨h1, ?_⟩
      intro j hj
      rcases List.mem_cons.mp hj with rfl | hj'
      · exact hfeas
      · exact h2 j hj'

/-- Some candidate is returned as soon as one feasible candidate is
scanned. -/
theorem selectBest_isSome (d : Dist) (cs : List CustomerData)
    (clat clon : ℚ) (load cap : ℤ) (l : List ℕ)
    (hex : ∃ j ∈ l, load + (cs.getD j default).demand ≤ cap) :
    ∃ p, selectBest d cs clat clon load cap l none = some p := by
  cases hsel : selectBest d cs clat clon load cap l none with
  | some p => exact ⟨p, rfl⟩
  | none =>
    obtain ⟨j, hj, hfj⟩ := hex
    exact absurd hfj
      ((selectBest_eq_none d cs clat clon load cap l none hsel).2 j hj)

/-- Invariants of one vehicle's construction loop: the final load is
the initial load plus the served demand, it respects the capacity as
soon as anything was served, and served points and leftover unassigned
indices partition the incoming unassigned list. -/
theorem buildRoute_spec (d : Dist) (cs : List CustomerData) (cap : ℤ) :
    ∀ (fuel n : ℕ) (la lo : ℚ) (load : ℤ) (un : List ℕ),
      (buildRoute d cs cap fuel n la lo load un).load
        = load + ((buildRoute d cs cap fuel n la lo load un).points.map
            (fun p => p.demand)).sum ∧
      ((buildRoute d cs cap fuel n la lo load un).points ≠ [] →
        (buildRoute d cs cap fuel n la lo load un).load ≤ cap) ∧
      (buildRoute d cs cap fuel n la lo load un).unassigned.length
          + (buildRoute d cs cap fuel n la lo load un).points.length
        = un.length ∧
      (∀ j ∈ (buildRoute d cs cap fuel n la lo load un).unassigned,
        j ∈ un) := by
  intro fuel
  induction fuel with
  | zero =>
    intro n la lo load un
    exact ⟨by simp [buildRoute], by simp [buildRoute],
      by simp [buildRoute], by simp [buildRoute]⟩
  | succ m ih =>
    intro n la lo load un
    cases hsel : selectBest d cs la lo load cap un none with
    | none =>
      simp only [buildRoute, hsel]
      exact ⟨by simp, by simp, by simp, fun j hj => hj⟩
    | some p =>
      obtain ⟨bi, bd⟩ := p
      obtain ⟨-, -, C⟩ := selectBest_spec d cs la lo load cap un none bi bd hsel
      rcases C with h0 | ⟨hfeas, -, -, l1, l2, hequn, -⟩
      · cases h0
      have hbi : bi ∈ un := by
        rw [hequn]
        exact List.mem_append_right _ (List.mem_cons_self _ _)
      obtain ⟨ih1, ih2, ih3, ih4⟩ := ih (n + 1) (cs.getD bi default).lat
        (cs.getD bi default).lon (load + (cs.getD bi default).demand)
        (un.erase bi)
      simp only [buildRoute, hsel]
      refine ⟨?_, ?_, ?_, ?_⟩
      · simp only [List.map_cons, List.sum_cons]
        rw [ih1]
        ring
      · intro _
        by_cases hrp : (buildRoute d cs cap m (n + 1) (cs.getD bi default).lat
            (cs.getD bi default).lon (load + (cs.getD bi default).demand)
            (un.erase bi)).points = []
        · rw [ih1, hrp]
          simpa using hfeas
        · exact ih2 hrp
      · simp only [List.length_cons]
        rw [List.length_erase_of_mem hbi] at ih3
        have hpos : 0 < un.length :=
          List.length_pos.mpr (List.ne_nil_of_mem hbi)
        omega
      · intro j hj
        exact List.mem_of_mem_erase (ih4 j hj)

/-- Facts about an emitted greedy route: it carries the vehicle's id,
serves at least one point, reports as `total_demand` exactly the sum of
its points' demands, respects the vehicle's capacity, splits the
unassigned list, and closes its polyline at the depot. -/
theorem greedyVehicle_some (d : Dist) (dep : DepotData)
    (cs : List CustomerData) (v : VehicleData) (un : List ℕ) (r : Route)
    (un' : List ℕ) (h : greedyVehicle d dep cs v un = (some r, un')) :
    r.vehicle_id = v.id ∧ r.points ≠ [] ∧
    r.total_demand = (r.points.map (fun p => p.demand)).sum ∧
    r.total_demand ≤ v.capacity ∧
    un'.length + r.points.length = un.length ∧
    (∀ j ∈ un', j ∈ un) ∧
    r.geometry = ((dep.lat, dep.lon) :: r.points.map
        (fun p => (p.lat, p.lon))) ++ [(dep.lat, dep.lon)] := by
  obtain ⟨h1, h2, h3, h4⟩ :=
    buildRoute_spec d cs v.capacity un.length 0 dep.lat dep.lon 0 un
  unfold greedyVehicle at h
  by_cases hp : (buildRoute d cs v.capacity un.length 0 dep.lat dep.lon
      0 un).points = []
  · rw [if_pos hp] at h
    cases h
  · rw [if_neg hp] at h
    have hfst := congrArg Prod.fst h
    have hsnd := congrArg Prod.snd h
    dsimp only at hfst hsnd
    rw [Option.some.injEq] at hfst
    subst hfst
    subst hsnd
    refine ⟨rfl, hp, ?_, ?_, h3, h4, rfl⟩
    · exact h1.trans (zero_add _)
    · exact h2 hp

/-- Any property established for every route emitted by
`greedyVehicle` holds for every route in the vehicle fold. -/
theorem greedy_fold_inv (d : Dist) (dep : DepotData)
    (cs : List CustomerData) (Q : Route → Prop) :
    ∀ (vs : List VehicleData) (acc : List Route × List ℕ),
      (∀ r ∈ acc.1, Q r) →
      (∀ v ∈ vs, ∀ un r un',
        greedyVehicle d dep cs v un = (some r, un') → Q r) →
      ∀ r ∈ (vs.foldl (greedyStep d dep cs) acc).1, Q r := by
  intro vs
  induction vs with
  | nil => intro acc hacc _ r hr; exact hacc r hr
  | cons v rest ih =>
    intro acc hacc hall r hr
    rw [List.foldl_cons] at hr
    refine ih (greedyStep d dep cs acc v) ?_
      (fun v' hv' => hall v' (List.mem_cons_of_mem _ hv')) r hr
    intro r' hr'
    unfold greedyStep at hr'
    cases hg : greedyVehicle d dep cs v acc.2 with
    | mk o un =>
      rw [hg] at hr'
      cases o with
      | none => exact hacc r' hr'
      | some rt =>
        dsimp only at hr'
        rcases List.mem_append.mp hr' with hmem | hmem
        · exact hacc r' hmem
        · rw [List.mem_singleton] at hmem
          subst hmem
          exact hall v (List.mem_cons_self v rest) acc.2 r' un hg

/-- C10: every route in the constructive heuristic's result serves at
least one customer (vehicles with no feasible customer contribute no
route object), and its `total_demand` equals the sum of the demands of
its points. -/
theorem c10_route_entries (d : Dist) (dep : DepotData)
    (cs : List CustomerData) (vs : List VehicleData) :
    ∀ r ∈ (optimizeGreedy d dep cs vs).routes,
      r.points ≠ [] ∧
      r.total_demand = (r.points.map (fun p => p.demand)).sum := by
  intro r hr
  refine greedy_fold_inv d dep cs
    (fun r => r.points ≠ [] ∧
      r.total_demand = (r.points.map (fun p => p.demand)).sum)
    vs ([], List.range cs.length) (by simp) ?_ r hr
  intro v _ un r' un' hg
  obtain ⟨-, h2, h3, -⟩ := greedyVehicle_some d dep cs v un r' un' hg
  exact ⟨h2, h3⟩

/-- C10 witness: the single route of a one-customer instance. -/
theorem c10_route_entries_witness :
    ((optimizeGreedy ratDist ⟨0, 0⟩ [⟨0, 0, 0, 1, 1⟩]
        [⟨0, 10⟩]).routes.headD default).points ≠ [] ∧
    ((optimizeGreedy ratDist ⟨0, 0⟩ [⟨0, 0, 0, 1, 1⟩]
        [⟨0, 10⟩]).routes.headD default).total_demand
      = (((optimizeGreedy ratDist ⟨0, 0⟩ [⟨0, 0, 0, 1, 1⟩]
          [⟨0, 10⟩]).routes.headD default).points.map
          (fun p => p.demand)).sum :=
  c10_route_entries ratDist ⟨0, 0⟩ [⟨0, 0, 0, 1, 1⟩] [⟨0, 10⟩]
    ((optimizeGreedy ratDist ⟨0, 0⟩ [⟨0, 0, 0, 1, 1⟩]
        [⟨0, 10⟩]).routes.headD default)
    (by with_unfolding_all decide)

/-- The closing forced return touches neither loads nor capacities. -/
theorem closeVehicle_load (d : Dist) (dx dy : ℚ) (v : Vehicle) :
    (closeVehicle d dx dy v).1.current_load = v.current_load ∧
    (closeVehicle d dx dy v).1.capacity = v.capacity := by
  unfold closeVehicle
  split_ifs <;> exact ⟨rfl, rfl⟩

/-- The action dispatch preserves the per-vehicle load invariant
`current_load ≤ capacity` (given nonnegative capacities, so that the
load resets to `0` stay legal). -/
theorem stepBranch_load_le (d : Dist) (env0 : Env) (a : ℕ)
    (hcap : ∀ v ∈ env0.vehicles,
      0 ≤ v.capacity ∧ v.current_load ≤ v.capacity) :
    ∀ v' ∈ (stepBranch d env0 a).1.vehicles,
      v'.current_load ≤ v'.capacity := by
  have hgd : 0 ≤ (env0.vehicles.getD env0.current_vehicle_idx
      default).capacity := by
    by_cases hvi : env0.current_vehicle_idx < env0.vehicles.length
    · rw [List.getD_eq_getElem _ _ hvi]
      exact (hcap _ (List.getElem_mem hvi)).1
    · rw [List.getD_eq_default _ _ (Nat.le_of_not_lt hvi)]
      exact le_refl 0
  intro v' hv'
  unfold stepBranch at hv'
  dsimp only at hv'
  split_ifs at hv' with h1 h2 h3 h4 <;>
    first
      | exact (hcap _ hv').2
      | (rcases List.mem_or_eq_of_mem_set hv' with hm | rfl
         · exact (hcap _ hm).2
         · exact hgd)
      | (rcases List.mem_or_eq_of_mem_set hv' with hm | rfl
         · exact (hcap _ hm).2
         · exact Int.not_lt.mp h4)

/-- The closing part preserves the per-vehicle load invariant. -/
theorem stepFinish_load_le (d : Dist) (p : Env × ℚ)
    (hcap : ∀ v ∈ p.1.vehicles, v.current_load ≤ v.capacity) :
    ∀ v' ∈ (stepFinish d p).env.vehicles,
      v'.current_load ≤ v'.capacity := by
  intro v' hv'
  unfold stepFinish at hv'
  dsimp only at hv'
  split_ifs at hv' with hall
  · rw [List.map_map] at hv'
    rcases List.mem_map.mp hv' with ⟨w, hw, rfl⟩
    obtain ⟨hl, hc⟩ := closeVehicle_load d p.1.depot_x p.1.depot_y w
    rw [Function.comp_apply, hl, hc]
    exact hcap w hw
  · exact hcap v' hv'

/-- One full environment step preserves the per-vehicle load
invariant. -/
theorem stepExt_load_le (d : Dist) (env : Env) (a : ℕ)
    (hcap : ∀ v ∈ env.vehicles,
      0 ≤ v.capacity ∧ v.current_load ≤ v.capacity) :
    ∀ v' ∈ (stepExt d env a).env.vehicles,
      v'.current_load ≤ v'.capacity :=
  stepFinish_load_le d _
    (stepBranch_load_le d { env with steps := env.steps + 1 } a hcap)

/-- C1 (amended): the constructive heuristic keeps every returned
route's total demand within its vehicle's capacity, and inside the
environment every step preserves the invariant that each vehicle's
*current* load is within its capacity. The blanket claim fails for the
learned-policy result path: a vehicle's `route` list accumulates
across depot returns while its load resets, so a returned route may
aggregate several trips whose summed demand exceeds the capacity, as
the counterexample exhibits. -/
theorem c1_capacity_amended (d : Dist) (dep : DepotData)
    (cs : List CustomerData) (vs : List VehicleData) :
    (∀ r ∈ (optimizeGreedy d dep cs vs).routes,
        ∃ v ∈ vs, r.vehicle_id = v.id ∧
          (r.points.map (fun p => p.demand)).sum ≤ v.capacity) ∧
    (∀ (env : Env) (a : ℕ),
        (∀ v ∈ env.vehicles,
          0 ≤ v.capacity ∧ v.current_load ≤ v.capacity) →
        ∀ v' ∈ (stepExt d env a).env.vehicles,
          v'.current_load ≤ v'.capacity) := by
  constructor
  · intro r hr
    refine greedy_fold_inv d dep cs
      (fun r => ∃ v ∈ vs, r.vehicle_id = v.id ∧
        (r.points.map (fun p => p.demand)).sum ≤ v.capacity)
      vs ([], List.range cs.length) (by simp) ?_ r hr
    intro v hv un r' un' hg
    obtain ⟨h1, -, h3, h4, -⟩ := greedyVehicle_some d dep cs v un r' un' hg
    exact ⟨v, hv, h1, h3 ▸ h4⟩
  · intro env a hcap
    exact stepExt_load_le d env a hcap

/-- C1 witness: the capacity bound on the one-customer greedy instance,
and load preservation across one concrete step. -/
theorem c1_capacity_amended_witness :
    (((optimizeGreedy ratDist ⟨0, 0⟩ [⟨0, 0, 0, 1, 1⟩]
        [⟨0, 10⟩]).routes.headD default).points.map
        (fun p => p.demand)).sum ≤ 10 ∧
    ((stepExt ratDist c2env0 0).env.vehicles.headD default).current_load
      ≤ ((stepExt ratDist c2env0 0).env.vehicles.headD
          default).capacity := by
  constructor
  · obtain ⟨v, hv, -, hle⟩ :=
      (c1_capacity_amended ratDist ⟨0, 0⟩ [⟨0, 0, 0, 1, 1⟩] [⟨0, 10⟩]).1
        ((optimizeGreedy ratDist ⟨0, 0⟩ [⟨0, 0, 0, 1, 1⟩]
          [⟨0, 10⟩]).routes.headD default)
        (by with_unfolding_all decide)
    rw [List.mem_singleton] at hv
    subst hv
    exact hle
  · exact (c1_capacity_amended ratDist ⟨0, 0⟩ [] []).2 c2env0 0
      (by with_unfolding_all decide) _ (by with_unfolding_all decide)

/-- C8: the constructive heuristic is deterministic — the embedding is
a pure function of its input, so repeated runs coincide definitionally
— and its selection loop breaks distance ties by the first-encountered
candidate in input order: a returned candidate is feasible, carries its
own distance, is nearest among all feasible candidates, and every
feasible candidate listed before it is strictly farther. -/
theorem c8_greedy_deterministic :
    (∀ (d : Dist) (dep : DepotData) (cs : List CustomerData)
        (vs : List VehicleData),
        optimizeGreedy d dep cs vs = optimizeGreedy d dep cs vs) ∧
    (∀ (d : Dist) (cs : List CustomerData) (clat clon : ℚ)
        (load cap : ℤ) (l : List ℕ) (i : ℕ) (di : ℚ),
        selectBest d cs clat clon load cap l none = some (i, di) →
        (load + (cs.getD i default).demand ≤ cap ∧
         di = d clat clon (cs.getD i default).lat
            (cs.getD i default).lon ∧
         (∀ j ∈ l, load + (cs.getD j default).demand ≤ cap →
            di ≤ d clat clon (cs.getD j default).lat
              (cs.getD j default).lon) ∧
         ∃ l1 l2, l = l1 ++ i :: l2 ∧
           ∀ j ∈ l1, load + (cs.getD j default).demand ≤ cap →
             di < d clat clon (cs.getD j default).lat
               (cs.getD j default).lon)) := by
  refine ⟨fun _ _ _ _ => rfl, ?_⟩
  intro d cs clat clon load cap l i di h
  obtain ⟨A, -, C⟩ := selectBest_spec d cs clat clon load cap l none i di h
  rcases C with h0 | ⟨hf, hd, -, l1, l2, heq, hpre⟩
  · exact absurd h0 (by simp)
  · exact ⟨hf, hd, A, l1, l2, heq, hpre⟩

/-- Two customers equidistant (L1 distance 1) from the scan origin:
the tie. -/
def csC8 : List CustomerData := [⟨0, 0, 1, 1, 1⟩, ⟨1, 1, 0, 1, 1⟩]

/-- C8 witness: on the two-customer tie instance the selection loop
returns the first-encountered minimizer, index 0 at distance 1. -/
theorem c8_greedy_deterministic_witness :
    (0 : ℤ) + (csC8.getD 0 default).demand ≤ 10 ∧
    (1 : ℚ) = ratDist 0 0 (csC8.getD 0 default).lat
        (csC8.getD 0 default).lon ∧
    (∀ j ∈ ([0, 1] : List ℕ),
        (0 : ℤ) + (csC8.getD j default).demand ≤ 10 →
        (1 : ℚ) ≤ ratDist 0 0 (csC8.getD j default).lat
            (csC8.getD j default).lon) ∧
    ∃ l1 l2, ([0, 1] : List ℕ) = l1 ++ 0 :: l2 ∧
      ∀ j ∈ l1, (0 : ℤ) + (csC8.getD j default).demand ≤ 10 →
        (1 : ℚ) < ratDist 0 0 (csC8.getD j default).lat
            (csC8.getD j default).lon :=
  c8_greedy_deterministic.2 ratDist csC8 0 0 0 10 [0, 1] 0 1
    (by with_unfolding_all rfl)

/-- The construction loop stops immediately when no unassigned
customer is feasible. -/
theorem buildRoute_stuck (d : Dist) (cs : List CustomerData) (cap : ℤ)
    (fuel n : ℕ) (la lo : ℚ) (load : ℤ) (un : List ℕ)
    (h : ∀ j ∈ un, ¬ (load + (cs.getD j default).demand ≤ cap)) :
    buildRoute d cs cap fuel n la lo load un
      = ⟨[], 0, load, la, lo, un⟩ := by
  cases fuel with
  | zero => rfl
  | succ m =>
    simp only [buildRoute,
      selectBest_of_no_feasible d cs la lo load cap un none h]

/-- With capacity 10, all demands 5 and load already 5, the loop serves
exactly one more customer and ends full. -/
theorem buildRoute_demand5_one (d : Dist) (cs : List CustomerData)
    (fuel n : ℕ) (la lo : ℚ) (un : List ℕ) (hne : un ≠ [])
    (hdem : ∀ j ∈ un, (cs.getD j default).demand = 5) :
    (buildRoute d cs 10 (fuel + 1) n la lo 5 un).points.length = 1 ∧
    (buildRoute d cs 10 (fuel + 1) n la lo 5 un).load = 10 ∧
    (buildRoute d cs 10 (fuel + 1) n la lo 5 un).unassigned.length
      = un.length - 1 := by
  obtain ⟨j0, hj0⟩ := List.exists_mem_of_ne_nil un hne
  obtain ⟨⟨bi, bd⟩, hp⟩ := selectBest_isSome d cs la lo 5 10 un
    ⟨j0, hj0, by rw [hdem j0 hj0]; norm_num⟩
  obtain ⟨-, -, C⟩ := selectBest_spec d cs la lo 5 10 un none bi bd hp
  rcases C with h0 | ⟨-, -, -, l1, l2, hequn, -⟩
  · exact absurd h0 (by simp)
  have hbi : bi ∈ un := by
    rw [hequn]
    exact List.mem_append_right _ (List.mem_cons_self _ _)
  have hd5 : (cs.getD bi default).demand = 5 := hdem bi hbi
  simp only [buildRoute, hp]
  rw [hd5, show (5 : ℤ) + 5 = 10 from by norm_num,
    buildRoute_stuck d cs 10 fuel (n + 1) (cs.getD bi default).lat
      (cs.getD bi default).lon 10 (un.erase bi)
      (fun j hj => by rw [hdem j (List.mem_of_mem_erase hj)]; norm_num)]
  exact ⟨rfl, rfl, List.length_erase_of_mem hbi⟩

/-- With capacity 10, all demands 5 and an empty vehicle, the loop
serves exactly two customers and ends full. -/
theorem buildRoute_demand5_two (d : Dist) (cs : List CustomerData)
    (m n : ℕ) (la lo : ℚ) (un : List ℕ) (hlen2 : 2 ≤ un.length)
    (hdem : ∀ j ∈ un, (cs.getD j default).demand = 5) :
    (buildRoute d cs 10 (m + 2) n la lo 0 un).points.length = 2 ∧
    (buildRoute d cs 10 (m + 2) n la lo 0 un).load = 10 ∧
    (buildRoute d cs 10 (m + 2) n la lo 0 un).unassigned.length
      = un.length - 2 := by
  have hne : un ≠ [] := by
    intro h
    rw [h] at hlen2
    norm_num at hlen2
  obtain ⟨j0, hj0⟩ := List.exists_mem_of_ne_nil un hne
  obtain ⟨⟨bi, bd⟩, hp⟩ := selectBest_isSome d cs la lo 0 10 un
    ⟨j0, hj0, by rw [hdem j0 hj0]; norm_num⟩
  obtain ⟨-, -, C⟩ := selectBest_spec d cs la lo 0 10 un none bi bd hp
  rcases C with h0 | ⟨-, -, -, l1, l2, hequn, -⟩
  · exact absurd h0 (by simp)
  have hbi : bi ∈ un := by
    rw [hequn]
    exact List.mem_append_right _ (List.mem_cons_self _ _)
  have hd5 : (cs.getD bi default).demand = 5 := hdem bi hbi
  have hlen' : (un.erase bi).length = un.length - 1 :=
    List.length_erase_of_mem hbi
  have hne' : un.erase bi ≠ [] := by
    intro h
    rw [h] at hlen'
    simp only [List.length_nil] at hlen'
    omega
  have hdem' : ∀ j ∈ un.erase bi, (cs.getD j default).demand = 5 :=
    fun j hj => hdem j (List.mem_of_mem_erase hj)
  obtain ⟨e1, e2, e3⟩ := buildRoute_demand5_one d cs m (n + 1)
    (cs.getD bi default).lat (cs.getD bi default).lon (un.erase bi)
    hne' hdem'
  rw [buildRoute, hp]
  dsimp only
  rw [hd5, show (0 : ℤ) + 5 = 5 from by norm_num]
  refine ⟨?_, e2, ?_⟩
  · rw [List.length_cons, e1]
  · rw [e3, hlen']
    omega

/-- C7: on any instance with three demand-5 customers and one vehicle
of capacity 10 the constructive heuristic serves exactly two customers
(customers_served = 2, customers_unserved = 1), emits a single route of
two stops, and that route's polyline ends with the depot return. -/
theorem c7_three_customers_scenario (d : Dist) (dep : DepotData)
    (c0 c1 c2 : CustomerData) (v : VehicleData)
    (h0 : c0.demand = 5) (h1 : c1.demand = 5) (h2 : c2.demand = 5)
    (hv : v.capacity = 10) :
    (optimizeGreedy d dep [c0, c1, c2] [v]).customers_served = 2 ∧
    (optimizeGreedy d dep [c0, c1, c2] [v]).customers_unserved = 1 ∧
    (optimizeGreedy d dep [c0, c1, c2] [v]).routes.length = 1 ∧
    ((optimizeGreedy d dep [c0, c1, c2] [v]).routes.headD
        default).points.length = 2 ∧
    ((optimizeGreedy d dep [c0, c1, c2] [v]).routes.headD
        default).geometry.getLast? = some (dep.lat, dep.lon) := by
  have hdem : ∀ j ∈ ([0, 1, 2] : List ℕ),
      (([c0, c1, c2] : List CustomerData).getD j default).demand = 5 := by
    intro j hj
    fin_cases hj
    · exact h0
    · exact h1
    · exact h2
  obtain ⟨b1, b2, b3⟩ := buildRoute_demand5_two d [c0, c1, c2] 1 0
    dep.lat dep.lon [0, 1, 2] (by norm_num) hdem
  have hbp : (buildRoute d [c0, c1, c2] v.capacity
      (([0, 1, 2] : List ℕ).length) 0 dep.lat dep.lon 0
      [0, 1, 2]).points.length = 2 := by
    rw [hv]
    exact b1
  have hbu : (buildRoute d [c0, c1, c2] v.capacity
      (([0, 1, 2] : List ℕ).length) 0 dep.lat dep.lon 0
      [0, 1, 2]).unassigned.length = 1 := by
    rw [hv]
    exact b3
  have hne : (buildRoute d [c0, c1, c2] v.capacity
      (([0, 1, 2] : List ℕ).length) 0 dep.lat dep.lon 0
      [0, 1, 2]).points ≠ [] := by
    intro hnil
    rw [hnil] at hbp
    simp at hbp
  have hrg : List.range ([c0, c1, c2] : List CustomerData).length
      = [0, 1, 2] := rfl
  unfold optimizeGreedy
  rw [List.foldl_cons, List.foldl_nil]
  unfold greedyStep greedyVehicle
  dsimp only
  rw [hrg, if_neg hne]
  dsimp only
  refine ⟨by simpa using hbp, by simpa using hbu, rfl,
    by simpa using hbp, ?_⟩
  exact List.getLast?_concat _

/-- C7 witness: the three-demand-5 scenario at concrete coordinates
under the concrete metric. -/
theorem c7_three_customers_scenario_witness :
    (optimizeGreedy ratDist ⟨0, 0⟩
      [⟨0, 0, 0, 5, 1⟩, ⟨1, 0, 0, 5, 1⟩, ⟨2, 0, 0, 5, 1⟩]
      [⟨0, 10⟩]).customers_served = 2 ∧
    (optimizeGreedy ratDist ⟨0, 0⟩
      [⟨0, 0, 0, 5, 1⟩, ⟨1, 0, 0, 5, 1⟩, ⟨2, 0, 0, 5, 1⟩]
      [⟨0, 10⟩]).customers_unserved = 1 ∧
    (optimizeGreedy ratDist ⟨0, 0⟩
      [⟨0, 0, 0, 5, 1⟩, ⟨1, 0, 0, 5, 1⟩, ⟨2, 0, 0, 5, 1⟩]
      [⟨0, 10⟩]).routes.length = 1 ∧
    ((optimizeGreedy ratDist ⟨0, 0⟩
      [⟨0, 0, 0, 5, 1⟩, ⟨1, 0, 0, 5, 1⟩, ⟨2, 0, 0, 5, 1⟩]
      [⟨0, 10⟩]).routes.headD default).points.length = 2 ∧
    ((optimizeGreedy ratDist ⟨0, 0⟩
      [⟨0, 0, 0, 5, 1⟩, ⟨1, 0, 0, 5, 1⟩, ⟨2, 0, 0, 5, 1⟩]
      [⟨0, 10⟩]).routes.headD default).geometry.getLast?
      = some ((0 : ℚ), (0 : ℚ)) :=
  c7_three_customers_scenario ratDist ⟨0, 0⟩ ⟨0, 0, 0, 5, 1⟩
    ⟨1, 0, 0, 5, 1⟩ ⟨2, 0, 0, 5, 1⟩ ⟨0, 10⟩ rfl rfl rfl rfl

/-- A vehicle scanning an empty unassigned list serves nothing. -/
theorem greedyVehicle_nil (d : Dist) (dep : DepotData)
    (cs : List CustomerData) (v : VehicleData) :
    greedyVehicle d dep cs v [] = (none, []) := rfl

/-- The vehicle fold from an empty unassigned list emits no routes. -/
theorem greedy_fold_nil (d : Dist) (dep : DepotData)
    (cs : List CustomerData) :
    ∀ vs : List VehicleData,
      vs.foldl (greedyStep d dep cs) ([], []) = ([], []) := by
  intro vs
  induction vs with
  | nil => rfl
  | cons v rest ih =>
    rw [List.foldl_cons,
      show greedyStep d dep cs ([], []) v = ([], []) from rfl]
    exact ih

/-- C3 (amended): the request schema rejects *both* empty lists as
validation failures before any strategy runs, and accepts any request
with both lists non-empty; the greedy strategy itself, when invoked
directly, returns success with zero routes, zero distance and zero
served/unserved for an empty customer list, and also returns success
(zero routes, every customer unserved) — not a validation failure —
for an empty vehicle list. -/
theorem c3_validation_amended (cids vids : List ℕ) (d : Dist)
    (dep : DepotData) (cs : List CustomerData) (vs : List VehicleData) :
    optimizationRequestValid [] vids = false ∧
    optimizationRequestValid cids [] = false ∧
    (cids ≠ [] → vids ≠ [] →
      optimizationRequestValid cids vids = true) ∧
    (optimizeGreedy d dep [] vs).success = true ∧
    (optimizeGreedy d dep [] vs).routes = [] ∧
    (optimizeGreedy d dep [] vs).total_distance_km = 0 ∧
    (optimizeGreedy d dep [] vs).customers_served = 0 ∧
    (optimizeGreedy d dep [] vs).customers_unserved = 0 ∧
    (optimizeGreedy d dep cs []).success = true ∧
    (optimizeGreedy d dep cs []).routes = [] ∧
    (optimizeGreedy d dep cs []).customers_unserved = cs.length := by
  have hfold := greedy_fold_nil d dep ([] : List CustomerData) vs
  refine ⟨by simp [optimizationRequestValid],
    by simp [optimizationRequestValid], ?_, ?_, ?_, ?_, ?_, ?_,
    rfl, rfl, ?_⟩
  · intro h1 h2
    have hc : 1 ≤ cids.length := List.length_pos.mpr h1
    have hw : 1 ≤ vids.length := List.length_pos.mpr h2
    simp [optimizationRequestValid, hc, hw]
  · rfl
  · unfold optimizeGreedy
    rw [show List.range ([] : List CustomerData).length = ([] : List ℕ)
      from rfl, hfold]
  · unfold optimizeGreedy
    rw [show List.range ([] : List CustomerData).length = ([] : List ℕ)
      from rfl, hfold]
    simp [round2]
  · unfold optimizeGreedy
    rw [show List.range ([] : List CustomerData).length = ([] : List ℕ)
      from rfl, hfold]
    rfl
  · unfold optimizeGreedy
    rw [show List.range ([] : List CustomerData).length = ([] : List ℕ)
      from rfl, hfold]
    rfl
  · unfold optimizeGreedy
    rw [List.foldl_nil]
    exact List.length_range cs.length

/-- C3 amended witness: concrete id lists and a concrete instance. -/
theorem c3_validation_amended_witness :
    optimizationRequestValid [] [7] = false ∧
    optimizationRequestValid [7] [] = false ∧
    optimizationRequestValid [7] [7] = true ∧
    (optimizeGreedy ratDist ⟨0, 0⟩ [] [⟨0, 10⟩]).success = true ∧
    (optimizeGreedy ratDist ⟨0, 0⟩ [] [⟨0, 10⟩]).routes = [] ∧
    (optimizeGreedy ratDist ⟨0, 0⟩
        [⟨0, 0, 0, 1, 1⟩] []).customers_unserved = 1 := by
  obtain ⟨w1, w2, w3, w4, w5, -, -, -, -, -, w11⟩ :=
    c3_validation_amended [7] [7] ratDist ⟨0, 0⟩ [⟨0, 0, 0, 1, 1⟩]
      [⟨0, 10⟩]
  exact ⟨w1, w2, w3 (by simp) (by simp), w4, w5, w11⟩

end VRP
